import Mathlib

/-!
Verification of the `cfn-container-image-provider` custom-resource handler
(`pkg/resources/container_image/handler.go`, current revision).

The Go code is shallowly embedded: pure string processing (the docker
reference grammar fragment used by `reference.Parse` / `ReferenceRegexp`,
the ECR repository-ARN regular expression, `v1.ParsePlatform`) is
translated into executable Lean functions over `List Char`; the stateful
handler (`validate`, `create`, `delete`, `Handler`) becomes explicit
state passing over an environment that models the two registries and the
credential service, together with a trace of the network operations the
handler performs.  External library calls that the repository treats as
black boxes (registry pull/push/delete, the ECR authorization-token
exchange) are modelled by oracle fields of that environment; the *order*
in which the handler makes them is taken from the Go source.
-/

namespace ContainerImage

/-! ### Character classes (ASCII, as used by the Go regular expressions) -/

def isLowerCh (c : Char) : Bool := 'a' ≤ c && c ≤ 'z'

def isUpperCh (c : Char) : Bool := 'A' ≤ c && c ≤ 'Z'

def isDigitCh (c : Char) : Bool := '0' ≤ c && c ≤ '9'

/-- lowercase letter or digit: the characters allowed to start a path component. -/
def isAlnumLowCh (c : Char) : Bool := isLowerCh c || isDigitCh c

/-- RE2 `\w`: letters, digits and underscore. -/
def isWordCh (c : Char) : Bool := isLowerCh c || isUpperCh c || isDigitCh c || c = '_'

/-- characters of a docker tag after the first: `[\w.-]`. -/
def isTagCh (c : Char) : Bool := isWordCh c || c = '.' || c = '-'

def isHexCh (c : Char) : Bool :=
  isDigitCh c || ('a' ≤ c && c ≤ 'f') || ('A' ≤ c && c ≤ 'F')

/-- characters of a repository path component after the first. -/
def isPathCh (c : Char) : Bool := isAlnumLowCh c || c = '.' || c = '_' || c = '-'

/-- characters allowed inside a registry host (with optional port), e.g.
`localhost:5000` or `Docker.IO`. -/
def isDomainCh (c : Char) : Bool :=
  isLowerCh c || isUpperCh c || isDigitCh c || c = '.' || c = '-' || c = ':'

/-- characters of the region group of the ECR ARN pattern: `[a-z\d-]`. -/
def isRegionCh (c : Char) : Bool := isLowerCh c || isDigitCh c || c = '-'

/-- characters of the repository-name group of the ECR ARN pattern:
`[a-z\d-_/.]` (the `-` between `\d` and `_` is a literal hyphen). -/
def isRepoCh (c : Char) : Bool :=
  isLowerCh c || isDigitCh c || c = '-' || c = '_' || c = '/' || c = '.'

def isSpaceCh (c : Char) : Bool := c = ' ' || c = '\t' || c = '\n' || c = '\r'

def toLowerCh (c : Char) : Char :=
  if isUpperCh c then Char.ofNat (c.toNat + 32) else c

/-! ### List-of-characters utilities -/

/-- Split at the first occurrence of `c`; `none` when `c` does not occur. -/
def splitFirst (c : Char) : List Char → Option (List Char × List Char)
  | [] => none
  | a :: rest =>
    if a = c then some ([], rest)
    else match splitFirst c rest with
      | some (pre, suf) => some (a :: pre, suf)
      | none => none

/-- Split at the last occurrence of `c`; `none` when `c` does not occur. -/
def splitLast (c : Char) : List Char → Option (List Char × List Char)
  | [] => none
  | a :: rest =>
    match splitLast c rest with
    | some (pre, suf) => some (a :: pre, suf)
    | none => if a = c then some ([], rest) else none

/-- All fields obtained by cutting at every occurrence of `c`
(the behaviour of Go's `strings.Split`). -/
def splitOnCh (c : Char) : List Char → List (List Char)
  | [] => [[]]
  | a :: rest =>
    let r := splitOnCh c rest
    if a = c then [] :: r
    else match r with
      | [] => [[a]]
      | h :: t => (a :: h) :: t

/-- Remove the literal pattern `p` from the front of `l`
(`none` when `l` does not start with `p`). -/
def dropPat : List Char → List Char → Option (List Char)
  | [], l => some l
  | _ :: _, [] => none
  | p :: ps, a :: rest => if a = p then dropPat ps rest else none

/-- Go `strings.TrimSpace` restricted to ASCII whitespace. -/
def trimSpace (l : List Char) : List Char :=
  ((l.dropWhile isSpaceCh).reverse.dropWhile isSpaceCh).reverse

def lowerList (l : List Char) : List Char := l.map toLowerCh

theorem splitFirst_of_not_mem {c : Char} {l : List Char} (h : c ∉ l) :
    splitFirst c l = none := by
  induction l with
  | nil => rfl
  | cons a rest ih =>
    simp only [List.mem_cons, not_or] at h
    have hstep : splitFirst c (a :: rest) =
        (if a = c then some ([], rest)
         else match splitFirst c rest with
           | some (pre, suf) => some (a :: pre, suf)
           | none => none) := rfl
    rw [hstep, if_neg (Ne.symm h.1), ih h.2]

theorem splitFirst_append {c : Char} {pre suf : List Char} (h : c ∉ pre) :
    splitFirst c (pre ++ c :: suf) = some (pre, suf) := by
  induction pre with
  | nil => simp [splitFirst]
  | cons a rest ih =>
    simp only [List.mem_cons, not_or] at h
    have hstep : splitFirst c ((a :: rest) ++ c :: suf) =
        (if a = c then some ([], rest ++ c :: suf)
         else match splitFirst c (rest ++ c :: suf) with
           | some (pre, suf) => some (a :: pre, suf)
           | none => none) := rfl
    rw [hstep, if_neg (Ne.symm h.1), ih h.2]

theorem splitLast_of_not_mem {c : Char} {l : List Char} (h : c ∉ l) :
    splitLast c l = none := by
  induction l with
  | nil => rfl
  | cons a rest ih =>
    simp only [List.mem_cons, not_or] at h
    have hstep : splitLast c (a :: rest) =
        (match splitLast c rest with
         | some (pre, suf) => some (a :: pre, suf)
         | none => if a = c then some ([], rest) else none) := rfl
    rw [hstep, ih h.2, if_neg (Ne.symm h.1)]

theorem splitLast_append {c : Char} {pre suf : List Char} (h : c ∉ suf) :
    splitLast c (pre ++ c :: suf) = some (pre, suf) := by
  induction pre with
  | nil =>
    have hstep : splitLast c ([] ++ c :: suf) =
        (match splitLast c suf with
         | some (pre, s) => some (c :: pre, s)
         | none => if c = c then some ([], suf) else none) := rfl
    rw [hstep, splitLast_of_not_mem h, if_pos rfl]
  | cons a rest ih =>
    have hstep : splitLast c ((a :: rest) ++ c :: suf) =
        (match splitLast c (rest ++ c :: suf) with
         | some (pre, s) => some (a :: pre, s)
         | none => if a = c then some ([], rest ++ c :: suf) else none) := rfl
    rw [hstep, ih]

theorem all_not_mem_of_pred {p : Char → Bool} {l : List Char} {c : Char}
    (hall : l.all p = true) (hc : p c = false) : c ∉ l := by
  intro hmem
  have := List.all_eq_true.mp hall c hmem
  rw [hc] at this
  exact Bool.noConfusion this

/-! ### The docker reference grammar

Embedding of `reference.Parse` / `reference.ReferenceRegexp`
(github.com/docker/distribution/reference) for the fragment of the
grammar this handler exercises: `name[:tag][@digest]`, where `name` is
`[domain/]path-component(/path-component)*`.  The regular expression is
rendered as a deterministic split: the digest is everything after the
first `@`, the tag is everything after the last `:` provided it is a
well-formed tag (otherwise that `:` belongs to a registry port inside
the name).  The three resulting fields are exactly the three capture
groups of `ReferenceRegexp`. -/

/-- a lowercase path component: `alphanumeric (separator alphanumeric)*`
(separators approximated by their character set). -/
def isPathComp : List Char → Bool
  | [] => false
  | c :: rest => isAlnumLowCh c && rest.all isPathCh

/-- a registry host, optionally with port, e.g. `localhost:5000`. -/
def isDomainComp : List Char → Bool
  | [] => false
  | c :: rest => (isLowerCh c || isUpperCh c || isDigitCh c) && rest.all isDomainCh

/-- the `name` group of `ReferenceRegexp`: slash-separated path
components, the first of which may instead be a registry host. -/
def isValidNameL (l : List Char) : Bool :=
  match splitOnCh '/' l with
  | [] => false
  | [c] => isPathComp c
  | c :: rest => (isPathComp c || isDomainComp c) && rest.all isPathComp

/-- the `tag` group: `[\w][\w.-]{0,127}`. -/
def isValidTagL : List Char → Bool
  | [] => false
  | c :: rest => isWordCh c && rest.all isTagCh && decide (rest.length ≤ 127)

/-- the `digest` group: `algorithm ":" hex` with at least 32 hex digits. -/
def isValidDigestL (l : List Char) : Bool :=
  match splitFirst ':' l with
  | none => false
  | some (alg, hex) =>
    (match alg with
     | [] => false
     | c :: rest => (isLowerCh c || isUpperCh c) && rest.all isWordCh) &&
    hex.all isHexCh && decide (32 ≤ hex.length)

/-- the three capture groups of `ReferenceRegexp`; absent groups are the
empty string, as in Go's `FindStringSubmatch`. -/
structure RefParts where
  name : String
  tag : String
  digest : String
deriving Repr, DecidableEq

/-- split `body` (a reference with any digest already removed) into name
and optional tag. -/
def parseNameTag (body : List Char) : Option (List Char × List Char) :=
  match splitLast ':' body with
  | some (n, t) =>
    if isValidTagL t then
      if isValidNameL n then some (n, t) else none
    else if isValidNameL body then some (body, []) else none
  | none => if isValidNameL body then some (body, []) else none

def parseRefL (l : List Char) : Option (List Char × List Char × List Char) :=
  match splitFirst '@' l with
  | some (body, d) =>
    if isValidDigestL d then
      match parseNameTag body with
      | some (n, t) => some (n, t, d)
      | none => none
    else none
  | none =>
    match parseNameTag l with
    | some (n, t) => some (n, t, [])
    | none => none

/-- Model of `reference.Parse` followed by the `ReferenceRegexp` group extraction
of `validate` (handler.go lines 59–71): `none` is the
`invalid reference format` error. -/
def parseReference (s : String) : Option RefParts :=
  match parseRefL s.data with
  | some (n, t, d) => some ⟨String.mk n, String.mk t, String.mk d⟩
  | none => none

/-! ### `reference.FamiliarString` and `name.ParseReference` -/

/-- Model of `reference.FamiliarString` on the name: a `docker.io/` registry (and
the `library/` official-image path) is dropped. -/
def familiarName (n : List Char) : List Char :=
  match dropPat "docker.io/library/".data n with
  | some rest => rest
  | none =>
    match dropPat "docker.io/".data n with
    | some rest => rest
    | none => n

/-- Model of `reference.FamiliarString` of a parsed reference. -/
def familiarString (p : RefParts) : String :=
  String.mk (familiarName p.name.data) ++
    (if p.tag ≠ "" then ":" ++ p.tag else "") ++
    (if p.digest ≠ "" then "@" ++ p.digest else "")

/-- Model of `name.ParseReference` (go-containerregistry): it accepts every
reference that `reference.Parse` accepts, and the resulting reference's
`String()` returns the input verbatim (the package keeps the original
string).  Its value is therefore the input string itself. -/
def nameParseRef (s : String) : Option String :=
  if (parseReference s).isSome then some s else none

theorem nameParseRef_eq {s t : String} (h : nameParseRef s = some t) : t = s := by
  unfold nameParseRef at h
  by_cases hp : (parseReference s).isSome
  · rw [if_pos hp] at h; exact (Option.some_injective _ h).symm
  · rw [if_neg hp] at h; exact Option.noConfusion h

/-! ### The ECR repository ARN pattern

`ecrRepositoryArnPattern = ^arn:aws:ecr:([a-z\d-]+):(\d+):repository/([a-z][a-z\d-_/.]+)$`
(handler.go line 37).  None of the three capture groups can contain
`:`, so the anchored match is equivalent to this deterministic split. -/

structure ArnParts where
  region : String
  accountID : String
  repositoryName : String
deriving Repr, DecidableEq

def checkRepoName : List Char → Bool
  | [] => false
  | c :: rest => isLowerCh c && !rest.isEmpty && rest.all isRepoCh

/-- Model of `ecrRepositoryArnPattern.FindStringSubmatch` (as used by `validate`):
`some` holds the three capture groups. -/
def ecrRepositoryArnMatch (s : String) : Option ArnParts :=
  match dropPat "arn:aws:ecr:".data s.data with
  | none => none
  | some rest =>
    match splitOnCh ':' rest with
    | [region, account, repoPart] =>
      if region.isEmpty || !region.all isRegionCh
          || account.isEmpty || !account.all isDigitCh then none
      else
        match dropPat "repository/".data repoPart with
        | some nm =>
          if checkRepoName nm then
            some ⟨String.mk region, String.mk account, String.mk nm⟩
          else none
        | none => none
    | _ => none

theorem checkRepoName_len {nm : List Char} (h : checkRepoName nm = true) :
    2 ≤ nm.length := by
  match nm with
  | [] => exact absurd h (by simp [checkRepoName])
  | [c] => exact absurd h (by simp [checkRepoName])
  | c :: r :: rs => simp [Nat.succ_le_succ, Nat.le_add_left]

theorem ecrArnMatch_repo_len {s : String} {a : ArnParts}
    (h : ecrRepositoryArnMatch s = some a) : 2 ≤ a.repositoryName.length := by
  unfold ecrRepositoryArnMatch at h
  split at h
  · exact Option.noConfusion h
  · split at h
    · split at h
      · exact Option.noConfusion h
      · split at h
        · split at h
          · rename_i hrepo
            cases h
            exact checkRepoName_len hrepo
          · exact Option.noConfusion h
        · exact Option.noConfusion h
    · exact Option.noConfusion h

/-! ### `v1.Platform` (go-containerregistry) -/

namespace V1

structure Platform where
  OS : String
  Architecture : String
  Variant : String
  OSVersion : String
deriving Repr, DecidableEq

/-- Rendering of `v1.Platform.String()`. -/
def Platform.str (p : Platform) : String :=
  if p.OS = "" then ""
  else p.OS ++
    (if p.Architecture ≠ "" then "/" ++ p.Architecture else "") ++
    (if p.Variant ≠ "" then "/" ++ p.Variant else "") ++
    (if p.OSVersion ≠ "" then ":" ++ p.OSVersion else "")

/-- Model of `v1.ParsePlatform`: trim, split an optional `:osversion`, then split
the remainder on `/` into os/arch/variant; more than three slash-parts
is the only error. -/
def ParsePlatform (s : String) : Option Platform :=
  let t := trimSpace s.data
  let colonParts := splitOnCh ':' t
  let osVersion : List Char :=
    match colonParts with
    | [_, v] => v
    | _ => []
  let base : List Char :=
    match colonParts with
    | [] => []
    | b :: _ => b
  match splitOnCh '/' base with
  | [os] => some ⟨String.mk os, "", "", String.mk osVersion⟩
  | [os, arch] => some ⟨String.mk os, String.mk arch, "", String.mk osVersion⟩
  | [os, arch, variant] =>
    some ⟨String.mk os, String.mk arch, String.mk variant, String.mk osVersion⟩
  | _ => none

end V1

/-! ### The resource-properties bag and the event envelope -/

/-- a value of the untyped `map[string]interface{}` property bag. -/
inductive PropValue
  | str (s : String)
  | num (n : Int)
  | listVal (vs : List PropValue)
  | boolVal (b : Bool)
  | nullVal
deriving Repr

def PropValue.isString : PropValue → Bool
  | .str _ => true
  | _ => false

/-- Model of `cfn.Event`. -/
structure Event where
  RequestType : String
  ResourceType : String
  ResourceProperties : List (String × PropValue)
  PhysicalResourceID : String
deriving Repr

/-- Go map lookup. -/
def getProp : List (String × PropValue) → String → Option PropValue
  | [], _ => none
  | (k, v) :: rest, key => if k = key then some v else getProp rest key

/-- the `value.(string)` type assertion on an optional map entry. -/
def asString : Option PropValue → Option String
  | some (.str s) => some s
  | _ => none

theorem asString_of_not_string {o : Option PropValue} {v : PropValue}
    (h : o = some v) (hv : v.isString = false) : asString o = none := by
  subst h
  cases v <;> simp [asString, PropValue.isString] at hv ⊢

/-! ### `validate` (handler.go lines 39–134) -/

/-- the error sites of `validate`, one constructor per `fmt.Errorf`. -/
inductive VError
  | missingImageReference
  | invalidReferenceFormat (ref : String)
  | invalidSourceReference (s : String)
  | invalidDigestReference (s : String)
  | invalidRepositoryArn (arn : String)
  | missingRepositoryArn
  | invalidTargetReference (s : String)
  | invalidPlatformFormat (platform : String)
deriving Repr, DecidableEq

/-- Model of `resourceProperties` (handler.go lines 24–34); references are
represented by the string `String()` returns for them. -/
structure Props where
  Source : String
  SourceTag : String
  SourceDigest : String
  SourceName : String
  Platform : Option V1.Platform
  Target : String
  Region : String
  AccountID : String
  RepositoryName : String
deriving Repr, DecidableEq

/-- target-reference composition (handler.go lines 98–111): tag wins
over digest when both are present. -/
def mkTargetRef (accountID region repositoryName tag digest : String) : String :=
  accountID ++ ".dkr.ecr." ++ region ++ ".amazonaws.com/" ++ repositoryName ++
    (if tag ≠ "" then ":" ++ tag else "@" ++ digest)

/-- the Platform property section of `validate` (lines 120–132). -/
def platformOf (event : Event) : Except VError (Option V1.Platform) :=
  match asString (getProp event.ResourceProperties "Platform") with
  | some platform =>
    if String.mk (trimSpace (lowerList platform.data)) = "all" then .ok none
    else
      match V1.ParsePlatform platform with
      | some p => .ok (some p)
      | none => .error (.invalidPlatformFormat platform)
  | none => .ok (some ⟨"linux", "amd64", "", ""⟩)

/-- lines 77–86: when a digest is present the source reference is
re-built as `name@digest` (the tag is dropped for pulling). -/
def sourceResolve (nm digest source0 : String) : Except VError String :=
  if digest ≠ "" then
    match parseReference (nm ++ "@" ++ digest) with
    | none => .error (.invalidDigestReference (nm ++ "@" ++ digest))
    | some dp =>
      match nameParseRef (familiarString dp) with
      | none => .error (.invalidDigestReference (familiarString dp))
      | some s => .ok s
  else .ok source0

/-- Model of `validate` (handler.go lines 39–134).  The `ReferenceRegexp` match
on line 59 repeats the parse of line 45 and cannot fail once that parse
succeeded, so its dead error branch is folded away; `tag` is suppressed
by `latest` defaulting exactly as in lines 63–75. -/
def validate (event : Event) : Except VError Props :=
  match asString (getProp event.ResourceProperties "ImageReference") with
  | none => .error .missingImageReference
  | some ref =>
  match parseReference ref with
  | none => .error (.invalidReferenceFormat ref)
  | some p =>
  match nameParseRef (familiarString p) with
  | none => .error (.invalidSourceReference (familiarString p))
  | some source0 =>
  match sourceResolve p.name p.digest source0 with
  | .error v => .error v
  | .ok source =>
  match asString (getProp event.ResourceProperties "RepositoryArn") with
  | none => .error .missingRepositoryArn
  | some arn =>
  match ecrRepositoryArnMatch arn with
  | none => .error (.invalidRepositoryArn arn)
  | some ap =>
  match nameParseRef (mkTargetRef ap.accountID ap.region ap.repositoryName
      (if p.digest = "" && p.tag = "" then "latest" else p.tag) p.digest) with
  | none => .error (.invalidTargetReference (mkTargetRef ap.accountID ap.region
      ap.repositoryName (if p.digest = "" && p.tag = "" then "latest" else p.tag) p.digest))
  | some tgt =>
  match platformOf event with
  | .error v => .error v
  | .ok plat =>
    .ok { Source := source
          SourceTag := if p.digest = "" && p.tag = "" then "latest" else p.tag
          SourceDigest := p.digest
          SourceName := p.name
          Platform := plat
          Target := tgt
          Region := ap.region
          AccountID := ap.accountID
          RepositoryName := ap.repositoryName }

/-! ### The remote-registry model

The registry protocol is out of scope (spec §1): `puller.Get`,
`pusher.Push` and `remote.Delete` are black boxes.  What the handler
observes of them is modelled here: a fetched manifest is either a
single image or a manifest index listing child manifests with optional
platforms; `Descriptor.Digest` is the digest of the fetched artifact
itself, and `Descriptor.Image()` resolves an index to the child
matching the puller's platform (whose own digest differs from the
index's).  The environment also carries the outcome oracles for the
session, the ECR `GetAuthorizationToken` exchange and the push, and
every network call the handler makes is recorded in a trace. -/

structure ChildManifest where
  digest : String
  platform : Option V1.Platform
deriving Repr, DecidableEq

inductive ManifestKind
  | image
  | index (manifests : List ChildManifest)
deriving Repr, DecidableEq

/-- Model of `remote.Descriptor` as observed by this handler. -/
structure Descriptor where
  Digest : String
  manifest : ManifestKind
deriving Repr, DecidableEq

/-- the platform match used by `Descriptor.Image()` on an index. -/
def matchesPlatform (child : Option V1.Platform) (want : V1.Platform) : Bool :=
  match child with
  | none => false
  | some h =>
    h.OS = want.OS && h.Architecture = want.Architecture &&
      (want.Variant = "" || h.Variant = want.Variant)

/-- Model of `descriptor.Image()` under `remote.WithPlatform`: an image resolves
to itself; an index resolves to the matching child image. -/
def resolveImage (d : Descriptor) (p : V1.Platform) : Option Descriptor :=
  match d.manifest with
  | .image => some d
  | .index ms =>
    match ms.find? (fun m => matchesPlatform m.platform p) with
    | some m => some ⟨m.digest, .image⟩
    | none => none

/-- Model of `getPlatforms` (handler.go lines 201–214): the platform strings of
an index's manifests in order, skipping manifests without a platform;
empty for a non-index artifact. -/
def getPlatforms (descriptor : Descriptor) : List String :=
  match descriptor.manifest with
  | .image => []
  | .index ms =>
    ms.foldl
      (fun platforms m =>
        match m.platform with
        | some p => platforms ++ [p.str]
        | none => platforms) []

/-- network operations the handler can perform, in the order performed. -/
inductive NetOp
  | getAuthorizationToken
  | registryGet (ref : String)
  | registryPush (ref : String)
  | registryDelete (ref : String)
deriving Repr, DecidableEq

/-- the external world of one invocation.  `authResult` is the combined
outcome of `ecr.GetAuthorizationToken` plus the token decoding of
`getAuthentication` (lines 232–255), whose internals are out of scope;
`sourceRegistry`/`targetRegistry` map reference strings to manifests;
`pushOk` and `deleteOk` are the outcome oracles of `pusher.Push` and
`remote.Delete`. -/
structure Env where
  sessionOk : Bool
  authResult : Except String Unit
  sourceRegistry : List (String × Descriptor)
  targetRegistry : List (String × Descriptor)
  pushOk : Bool
  deleteOk : Bool
deriving Repr

def lookupReg : List (String × Descriptor) → String → Option Descriptor
  | [], _ => none
  | (k, v) :: rest, key => if k = key then some v else lookupReg rest key

inductive CErr
  | validation (v : VError)
  | fetchFailed
  | imageResolveFailed
  | pushFailed
deriving Repr, DecidableEq

/-- Model of the `Digest`/`ImageReference`/`Platforms` result attributes
(handler.go lines 192–196). -/
structure OutputData where
  Digest : String
  ImageReference : String
  Platforms : List String
deriving Repr, DecidableEq

structure CreateOutcome where
  result : Except CErr (String × OutputData)
  trace : List NetOp
  pushed : List (String × Descriptor)
  envAfter : Env
deriving Repr

/-- Model of `create` (handler.go lines 136–199) on the registry state and the
push oracle.  Returns the result, the registry calls made, the
artifacts pushed to the target, and the updated target registry.
`remote.NewPuller`/`NewPusher` cannot fail for the fixed options used
here, so those dead error branches are folded away. -/
def createRun (sourceRegistry : List (String × Descriptor)) (pushOk : Bool)
    (event : Event) :
    Except CErr (String × OutputData) × List NetOp × List (String × Descriptor) :=
  match validate event with
  | .error v => (.error (.validation v), [], [])
  | .ok props =>
    match lookupReg sourceRegistry props.Source with
    | none => (.error .fetchFailed, [.registryGet props.Source], [])
    | some descriptor =>
      match props.Platform with
      | none =>
        if pushOk then
          (.ok (props.Target,
             ⟨descriptor.Digest, props.Target, getPlatforms descriptor⟩),
           [.registryGet props.Source, .registryPush props.Target],
           [(props.Target, descriptor)])
        else
          (.error .pushFailed,
           [.registryGet props.Source, .registryPush props.Target], [])
      | some p =>
        match resolveImage descriptor p with
        | none => (.error .imageResolveFailed, [.registryGet props.Source], [])
        | some image =>
          if pushOk then
            (.ok (props.Target,
               ⟨descriptor.Digest, props.Target, [p.str]⟩),
             [.registryGet props.Source, .registryPush props.Target],
             [(props.Target, image)])
          else
            (.error .pushFailed,
             [.registryGet props.Source, .registryPush props.Target], [])

def create (env : Env) (event : Event) : CreateOutcome :=
  let r := createRun env.sourceRegistry env.pushOk event
  { result := r.1
    trace := r.2.1
    pushed := r.2.2
    envAfter := { env with targetRegistry := env.targetRegistry ++ r.2.2 } }

/-! ### `delete` and `Handler` (handler.go lines 216–293) -/

inductive HErr
  | sessionFailed
  | authFailed (msg : String)
  | createFailed (err : CErr)
  | unsupportedRequestType (s : String)
  | unsupportedResourceType (s : String)
deriving Repr, DecidableEq

structure HandlerOutcome where
  physicalResourceID : String
  data : Option OutputData
  error : Option HErr
  trace : List NetOp
  pushed : List (String × Descriptor)
  envAfter : Env
deriving Repr

/-- Model of `delete` (handler.go lines 216–230): parse failure of the physical
resource id is logged and ignored; a failing `remote.Delete` is logged
and ignored (`deleteOk` does not influence the outcome); the returned
physical id is the never-assigned named return value, i.e. `""`. -/
def deleteRun (env : Env) (event : Event) : HandlerOutcome :=
  match parseReference event.PhysicalResourceID with
  | some _ =>
    ⟨"", none, none, [.registryDelete event.PhysicalResourceID], [], env⟩
  | none => ⟨"", none, none, [], [], env⟩

/-- Model of `Handler` (handler.go lines 257–293).  The session and the
credential exchange happen before the request dispatch; the
`GetAuthorizationToken` network call is therefore always made (and
traced) before `validate` runs. -/
def Handler (env : Env) (event : Event) : HandlerOutcome :=
  if !env.sessionOk then ⟨"", none, some .sessionFailed, [], [], env⟩
  else
    match env.authResult with
    | .error msg =>
      ⟨"", none, some (.authFailed msg), [.getAuthorizationToken], [], env⟩
    | .ok _ =>
      if event.ResourceType = "Custom::ContainerImage" then
        match event.RequestType with
        | "Create" =>
          let o := create env event
          match o.result with
          | .ok (id, data) =>
            ⟨if id = "" then "create-failed" else id, some data, none,
             .getAuthorizationToken :: o.trace, o.pushed, o.envAfter⟩
          | .error err =>
            ⟨"create-failed", none, some (.createFailed err),
             .getAuthorizationToken :: o.trace, o.pushed, o.envAfter⟩
        | "Update" =>
          let o := create env event
          match o.result with
          | .ok (id, data) =>
            ⟨id, some data, none,
             .getAuthorizationToken :: o.trace, o.pushed, o.envAfter⟩
          | .error err =>
            ⟨"", none, some (.createFailed err),
             .getAuthorizationToken :: o.trace, o.pushed, o.envAfter⟩
        | "Delete" =>
          let o := deleteRun env event
          { o with trace := .getAuthorizationToken :: o.trace }
        | rt =>
          ⟨"", none, some (.unsupportedRequestType rt),
           [.getAuthorizationToken], [], env⟩
      else
        ⟨"", none, some (.unsupportedResourceType event.ResourceType),
         [.getAuthorizationToken], [], env⟩

/-! ### Inversion and parser-correctness lemmas -/

theorem validate_ok_inv {event : Event} {props : Props}
    (h : validate event = .ok props) :
    (∃ ref p,
      asString (getProp event.ResourceProperties "ImageReference") = some ref ∧
      parseReference ref = some p ∧
      props.SourceTag = (if p.digest = "" && p.tag = "" then "latest" else p.tag) ∧
      props.SourceDigest = p.digest ∧
      props.SourceName = p.name) ∧
    (∃ arn ap,
      asString (getProp event.ResourceProperties "RepositoryArn") = some arn ∧
      ecrRepositoryArnMatch arn = some ap ∧
      props.Region = ap.region ∧ props.AccountID = ap.accountID ∧
      props.RepositoryName = ap.repositoryName ∧
      props.Target = mkTargetRef ap.accountID ap.region ap.repositoryName
        props.SourceTag props.SourceDigest) ∧
    platformOf event = .ok props.Platform := by
  unfold validate at h
  split at h
  · exact Except.noConfusion h
  rename_i ref href
  split at h
  · exact Except.noConfusion h
  rename_i p hp
  split at h
  · exact Except.noConfusion h
  rename_i source0 hs0
  split at h
  · exact Except.noConfusion h
  rename_i source hsr
  split at h
  · exact Except.noConfusion h
  rename_i arn harn
  split at h
  · exact Except.noConfusion h
  rename_i ap hap
  split at h
  · exact Except.noConfusion h
  rename_i tgt htgt
  split at h
  · exact Except.noConfusion h
  rename_i plat hplat
  injection h with h
  subst h
  exact ⟨⟨ref, p, href, hp, rfl, rfl, rfl⟩,
    ⟨arn, ap, harn, hap, rfl, rfl, rfl, nameParseRef_eq htgt⟩, hplat⟩

theorem sourceResolve_err {nm digest s0 : String} {v : VError}
    (h : sourceResolve nm digest s0 = .error v) :
    ∃ x, v = .invalidDigestReference x := by
  unfold sourceResolve at h
  split at h
  · split at h
    · injection h with h; exact ⟨_, h.symm⟩
    · split at h
      · injection h with h; exact ⟨_, h.symm⟩
      · exact Except.noConfusion h
  · exact Except.noConfusion h

theorem validate_platform_err {event : Event} {m : String}
    (h : validate event = .error (.invalidPlatformFormat m)) :
    platformOf event = .error (.invalidPlatformFormat m) := by
  unfold validate at h
  split at h
  · injection h with h; exact absurd h (by simp)
  split at h
  · injection h with h; exact absurd h (by simp)
  split at h
  · injection h with h; exact absurd h (by simp)
  split at h
  · rename_i v hv
    injection h with h
    obtain ⟨x, hx⟩ := sourceResolve_err hv
    rw [hx] at h
    exact absurd h (by simp)
  split at h
  · injection h with h; exact absurd h (by simp)
  split at h
  · injection h with h; exact absurd h (by simp)
  split at h
  · injection h with h; exact absurd h (by simp)
  split at h
  · rename_i v hv
    injection h with h
    rw [h] at hv
    exact hv
  · exact Except.noConfusion h

theorem splitFirst_eq {c : Char} :
    ∀ {l pre suf : List Char}, splitFirst c l = some (pre, suf) →
      l = pre ++ c :: suf := by
  intro l
  induction l with
  | nil => intro pre suf h; exact Option.noConfusion h
  | cons a rest ih =>
    intro pre suf h
    by_cases hac : a = c
    · rw [splitFirst, if_pos hac] at h
      injection h with h
      injection h with h1 h2
      subst h1; subst h2; subst hac
      rfl
    · rw [splitFirst, if_neg hac] at h
      cases hrest : splitFirst c rest with
      | none => rw [hrest] at h; exact Option.noConfusion h
      | some pq =>
        obtain ⟨pr, sf⟩ := pq
        rw [hrest] at h
        injection h with h
        injection h with h1 h2
        subst h1; subst h2
        rw [ih hrest]
        rfl

/-! Bool-level validity of the three reference fields, at the `String`
level, with the character exclusions needed to place them in a larger
reference made explicit. -/

/-- a name acceptable to the reference grammar that contains no `:`
(registry port) and no `@`; e.g. `python`, `docker.io/library/python`. -/
def validPlainName (n : String) : Bool :=
  isValidNameL n.data && decide (':' ∉ n.data) && decide ('@' ∉ n.data)

def validTagStr (t : String) : Bool := isValidTagL t.data

def validDigestStr (d : String) : Bool := isValidDigestL d.data

theorem not_mem_of_validTag {l : List Char} {c : Char} (h : isValidTagL l = true)
    (h1 : isWordCh c = false) (h2 : isTagCh c = false) : c ∉ l := by
  match l with
  | [] => exact List.not_mem_nil c
  | a :: rest =>
    simp only [isValidTagL, Bool.and_eq_true] at h
    intro hmem
    rcases List.mem_cons.mp hmem with he | hr
    · rw [he] at h1; rw [h.1.1] at h1; exact Bool.noConfusion h1
    · exact all_not_mem_of_pred h.1.2 h2 hr

theorem not_mem_of_validDigest {l : List Char} (h : isValidDigestL l = true) :
    '@' ∉ l := by
  unfold isValidDigestL at h
  cases hsp : splitFirst ':' l with
  | none => rw [hsp] at h; exact Bool.noConfusion h
  | some pq =>
    obtain ⟨alg, hex⟩ := pq
    rw [hsp] at h
    simp only [Bool.and_eq_true] at h
    obtain ⟨⟨halg, hhex⟩, _⟩ := h
    rw [splitFirst_eq hsp]
    intro hmem
    rcases List.mem_append.mp hmem with ha | hch
    · match alg, halg, ha with
      | [], halg, _ => exact Bool.noConfusion halg
      | c :: rest, halg, ha =>
        simp only [Bool.and_eq_true] at halg
        rcases List.mem_cons.mp ha with he | hr
        · rw [← he] at halg
          exact absurd halg.1 (by decide)
        · exact all_not_mem_of_pred halg.2 (by decide) hr
    · rcases List.mem_cons.mp hch with he | hr
      · exact absurd he (by decide)
      · exact all_not_mem_of_pred hhex (by decide) hr

theorem validTag_ne_empty {t : String} (h : validTagStr t = true) : t ≠ "" := by
  intro he
  subst he
  exact Bool.noConfusion h

theorem validDigest_ne_empty {d : String} (h : validDigestStr d = true) : d ≠ "" := by
  intro he
  subst he
  exact Bool.noConfusion h

theorem parseRef_name_only {n : String} (h : validPlainName n = true) :
    parseReference n = some ⟨n, "", ""⟩ := by
  simp only [validPlainName, Bool.and_eq_true, decide_eq_true_eq] at h
  have hat : splitFirst '@' n.data = none := splitFirst_of_not_mem h.2
  have hcol : splitLast ':' n.data = none := splitLast_of_not_mem h.1.2
  simp only [parseReference, parseRefL, parseNameTag, hat, hcol, h.1.1,
    if_true]

theorem parseRef_name_tag {n t : String} (hn : validPlainName n = true)
    (ht : validTagStr t = true) :
    parseReference (n ++ ":" ++ t) = some ⟨n, t, ""⟩ := by
  simp only [validPlainName, Bool.and_eq_true, decide_eq_true_eq] at hn
  have hdata : (n ++ ":" ++ t).data = n.data ++ ':' :: t.data := by
    simp [String.data_append]
  have hat : '@' ∉ n.data ++ ':' :: t.data := by
    intro hmem
    rcases List.mem_append.mp hmem with ha | hch
    · exact hn.2 ha
    · rcases List.mem_cons.mp hch with he | hr
      · exact absurd he (by decide)
      · exact not_mem_of_validTag ht (by decide) (by decide) hr
  have hsl : splitLast ':' (n.data ++ ':' :: t.data) = some (n.data, t.data) :=
    splitLast_append (not_mem_of_validTag ht (by decide) (by decide))
  have ht' : isValidTagL t.data = true := ht
  simp [parseReference, parseRefL, parseNameTag, hdata,
    splitFirst_of_not_mem hat, hsl, ht', hn.1.1]

theorem parseRef_name_digest {n d : String} (hn : validPlainName n = true)
    (hd : validDigestStr d = true) :
    parseReference (n ++ "@" ++ d) = some ⟨n, "", d⟩ := by
  simp only [validPlainName, Bool.and_eq_true, decide_eq_true_eq] at hn
  have hdata : (n ++ "@" ++ d).data = n.data ++ '@' :: d.data := by
    simp [String.data_append]
  have hsf : splitFirst '@' (n.data ++ '@' :: d.data) = some (n.data, d.data) :=
    splitFirst_append hn.2
  have hcol : splitLast ':' n.data = none := splitLast_of_not_mem hn.1.2
  have hd' : isValidDigestL d.data = true := hd
  simp [parseReference, parseRefL, parseNameTag, hdata, hsf, hd', hcol,
    hn.1.1]

/-! ### Reduction lemmas for `create` and `Handler` -/

theorem foldl_platforms (ms : List ChildManifest) (acc : List String) :
    ms.foldl
      (fun platforms m =>
        match m.platform with
        | some p => platforms ++ [p.str]
        | none => platforms) acc
    = acc ++ (ms.filterMap (fun m => m.platform)).map V1.Platform.str := by
  induction ms generalizing acc with
  | nil => simp
  | cons m rest ih =>
    cases hm : m.platform with
    | none => simp [List.foldl_cons, hm, ih, List.filterMap_cons]
    | some p => simp [List.foldl_cons, hm, ih, List.filterMap_cons]

theorem getPlatforms_index {d : Descriptor} {ms : List ChildManifest}
    (h : d.manifest = .index ms) :
    getPlatforms d = (ms.filterMap (fun m => m.platform)).map V1.Platform.str := by
  unfold getPlatforms
  rw [h]
  simpa using foldl_platforms ms []

theorem create_err_parts (env : Env) {e : Event} {v : VError}
    (h : validate e = .error v) :
    (create env e).result = .error (.validation v) ∧
    (create env e).trace = [] ∧ (create env e).pushed = [] := by
  refine ⟨?_, ?_, ?_⟩ <;>
    simp [create, createRun, h]

theorem create_result_congr (env1 env2 : Env) (e : Event)
    (hs : env1.sourceRegistry = env2.sourceRegistry)
    (hp : env1.pushOk = env2.pushOk) :
    (create env1 e).result = (create env2 e).result := by
  show (createRun env1.sourceRegistry env1.pushOk e).1
      = (createRun env2.sourceRegistry env2.pushOk e).1
  rw [hs, hp]

theorem Handler_create_ok {env : Env} {e : Event} {id0 : String}
    {data0 : OutputData}
    (hs : env.sessionOk = true) (ha : env.authResult = .ok ())
    (hrt : e.ResourceType = "Custom::ContainerImage")
    (hreq : e.RequestType = "Create")
    (hres : (create env e).result = .ok (id0, data0)) :
    Handler env e =
      ⟨if id0 = "" then "create-failed" else id0, some data0, none,
       .getAuthorizationToken :: (create env e).trace, (create env e).pushed,
       (create env e).envAfter⟩ := by
  unfold Handler
  rw [hs, ha, hrt, hreq]
  simp [hres]

theorem Handler_create_err {env : Env} {e : Event} {err : CErr}
    (hs : env.sessionOk = true) (ha : env.authResult = .ok ())
    (hrt : e.ResourceType = "Custom::ContainerImage")
    (hreq : e.RequestType = "Create")
    (hres : (create env e).result = .error err) :
    Handler env e =
      ⟨"create-failed", none, some (.createFailed err),
       .getAuthorizationToken :: (create env e).trace, (create env e).pushed,
       (create env e).envAfter⟩ := by
  unfold Handler
  rw [hs, ha, hrt, hreq]
  simp [hres]

theorem Handler_update_err {env : Env} {e : Event} {err : CErr}
    (hs : env.sessionOk = true) (ha : env.authResult = .ok ())
    (hrt : e.ResourceType = "Custom::ContainerImage")
    (hreq : e.RequestType = "Update")
    (hres : (create env e).result = .error err) :
    Handler env e =
      ⟨"", none, some (.createFailed err),
       .getAuthorizationToken :: (create env e).trace, (create env e).pushed,
       (create env e).envAfter⟩ := by
  unfold Handler
  rw [hs, ha, hrt, hreq]
  simp [hres]

theorem Handler_delete {env : Env} {e : Event}
    (hs : env.sessionOk = true) (ha : env.authResult = .ok ())
    (hrt : e.ResourceType = "Custom::ContainerImage")
    (hreq : e.RequestType = "Delete") :
    Handler env e =
      { deleteRun env e with
        trace := .getAuthorizationToken :: (deleteRun env e).trace } := by
  unfold Handler
  rw [hs, ha, hrt, hreq]
  simp

/-! ### Concrete fixtures (from the repository's own test vectors) -/

def digest3d35 : String :=
  "sha256:3d35a404db586d00a4ee5a65fd1496fe019ed4bdc068d436a67ce5b64b8b9659"

def demoArn : String :=
  "arn:aws:ecr:eu-central-1:444093529715:repository/cfn-container-image-provider-demo"

def demoTarget : String :=
  "444093529715.dkr.ecr.eu-central-1.amazonaws.com/cfn-container-image-provider-demo"

def c1Event : Event :=
  ⟨"Create", "Custom::ContainerImage",
   [("ImageReference", .str ("python:3.9@" ++ digest3d35)),
    ("RepositoryArn", .str demoArn)], ""⟩

def c1Env : Env :=
  ⟨true, .ok (), [("python@" ++ digest3d35, ⟨digest3d35, .image⟩)], [], true, true⟩

/-! ### The claims -/

/-- Claim C1: for every source reference carrying both a tag and a digest,
the composed target reference uses the tag as its suffix (`:{tag}`), not
the digest; in particular for `python:3.9@sha256:3d35…9659` and the
demo repository ARN the physical resource id is
`444093529715.dkr.ecr.eu-central-1.amazonaws.com/cfn-container-image-provider-demo:3.9`. -/
theorem c1_tag_precedence :
    (∀ (e : Event) (props : Props), validate e = .ok props →
      props.SourceTag ≠ "" → props.SourceDigest ≠ "" →
      props.Target = props.AccountID ++ ".dkr.ecr." ++ props.Region ++
        ".amazonaws.com/" ++ props.RepositoryName ++ (":" ++ props.SourceTag)) ∧
    (Handler c1Env c1Event).physicalResourceID =
      "444093529715.dkr.ecr.eu-central-1.amazonaws.com/cfn-container-image-provider-demo:3.9" := by
  constructor
  · intro e props h htag _
    obtain ⟨_, ⟨arn, ap, _, _, hreg, hacct, hrepo, htgt⟩, _⟩ := validate_ok_inv h
    rw [htgt, hreg, hacct, hrepo]
    unfold mkTargetRef
    rw [if_pos htag]
  · rfl

def c1Props : Props :=
  ⟨"python@" ++ digest3d35, "3.9", digest3d35, "python",
   some ⟨"linux", "amd64", "", ""⟩, demoTarget ++ ":3.9",
   "eu-central-1", "444093529715", "cfn-container-image-provider-demo"⟩

theorem c1_witness :
    validate c1Event = .ok c1Props ∧
    c1Props.Target = c1Props.AccountID ++ ".dkr.ecr." ++ c1Props.Region ++
      ".amazonaws.com/" ++ c1Props.RepositoryName ++ (":" ++ c1Props.SourceTag) :=
  ⟨rfl, c1_tag_precedence.1 c1Event c1Props rfl (by decide) (by decide)⟩

def c2Arn : String := "arn:a:ws:ecr:eu-ce:ntral-1:444093529715:repository/python"

def c2Event : Event :=
  ⟨"Create", "Custom::ContainerImage",
   [("ImageReference", .str "docker.io/library/python:3.9"),
    ("RepositoryArn", .str c2Arn)], ""⟩

def c2Env : Env := ⟨true, .ok (), [], [], true, true⟩

/-- Claim C2 counterexample: an invocation whose repository ARN is invalid
does reach the network: the handler performs the `GetAuthorizationToken`
network call before `validate` runs, and only then reports the
invalid-ARN validation error.  So the validation error is *not* raised
before any network call. -/
theorem c2_counterexample :
    (Handler c2Env c2Event).trace = [NetOp.getAuthorizationToken] ∧
    (Handler c2Env c2Event).error =
      some (.createFailed (.validation (.invalidRepositoryArn c2Arn))) :=
  ⟨rfl, rfl⟩

/-- Claim C2 amended: for Create/Update invocations with invalid
properties the validation error is raised before any *registry*
operation — the trace contains no registry fetch, push or delete (at
most the credential-exchange call) and nothing is pushed. -/
theorem c2_amended :
    ∀ (env : Env) (e : Event) (v : VError),
      validate e = .error v →
      e.RequestType = "Create" ∨ e.RequestType = "Update" →
      (∀ op ∈ (Handler env e).trace, op = NetOp.getAuthorizationToken) ∧
      (Handler env e).pushed = [] := by
  intro env e v hval hreq
  obtain ⟨hres, htr, hpu⟩ := create_err_parts env hval
  by_cases hs : env.sessionOk = true
  · cases ha : env.authResult with
    | error msg =>
      have hH : Handler env e =
          ⟨"", none, some (.authFailed msg), [.getAuthorizationToken], [], env⟩ := by
        unfold Handler
        rw [hs, ha]
        simp
      rw [hH]
      exact ⟨fun op hop => by simpa using hop, rfl⟩
    | ok u =>
      cases u
      by_cases hrt : e.ResourceType = "Custom::ContainerImage"
      · rcases hreq with hc | hu
        · rw [Handler_create_err hs ha hrt hc hres]
          refine ⟨fun op hop => ?_, hpu⟩
          rw [htr] at hop
          simpa using hop
        · rw [Handler_update_err hs ha hrt hu hres]
          refine ⟨fun op hop => ?_, hpu⟩
          rw [htr] at hop
          simpa using hop
      · have hH : Handler env e =
            ⟨"", none, some (.unsupportedResourceType e.ResourceType),
             [.getAuthorizationToken], [], env⟩ := by
          unfold Handler
          rw [hs, ha]
          simp [hrt]
        rw [hH]
        exact ⟨fun op hop => by simpa using hop, rfl⟩
  · have hsf : env.sessionOk = false := by
      cases h2 : env.sessionOk with
      | false => rfl
      | true => exact absurd h2 hs
    have hH : Handler env e = ⟨"", none, some .sessionFailed, [], [], env⟩ := by
      unfold Handler
      rw [hsf]
      simp
    rw [hH]
    exact ⟨fun op hop => by simp at hop, rfl⟩

theorem c2_witness :
    (∀ op ∈ (Handler c2Env c2Event).trace, op = NetOp.getAuthorizationToken) ∧
    (Handler c2Env c2Event).pushed = [] :=
  c2_amended c2Env c2Event (.invalidRepositoryArn c2Arn) rfl (Or.inl rfl)

def c3Env : Env :=
  ⟨true, .error "no authorization data was returned", [], [], true, true⟩

def c3Event : Event :=
  ⟨"Delete", "Custom::ContainerImage", [], demoTarget ++ ":3.9"⟩

/-- Claim C3 counterexample: a Delete invocation *can* return an error:
when the credential exchange fails (`getAuthentication` errors before
the request-type dispatch) the handler returns that error even for a
Delete request. -/
theorem c3_counterexample :
    (Handler c3Env c3Event).error =
      some (.authFailed "no authorization data was returned") := rfl

/-- Claim C3 amended: provided the AWS session is created and the
credential exchange succeeds, a Delete request for
`Custom::ContainerImage` always returns success — an unparsable
physical resource id and a failing remote delete are both logged and
swallowed. -/
theorem c3_amended :
    ∀ (env : Env) (e : Event),
      env.sessionOk = true → env.authResult = .ok () →
      e.ResourceType = "Custom::ContainerImage" → e.RequestType = "Delete" →
      (Handler env e).error = none ∧ (Handler env e).data = none := by
  intro env e hs ha hrt hreq
  rw [Handler_delete hs ha hrt hreq]
  unfold deleteRun
  split <;> exact ⟨rfl, rfl⟩

def c3wEnv : Env := ⟨true, .ok (), [], [], true, false⟩

def c3wEvent : Event :=
  ⟨"Delete", "Custom::ContainerImage", [], "%%% not a reference %%%"⟩

theorem c3_witness :
    (Handler c3wEnv c3wEvent).error = none ∧
    (Handler c3wEnv c3wEvent).data = none :=
  c3_amended c3wEnv c3wEvent rfl rfl rfl rfl

/-- Claim C4: on a successful mirror, the `Platforms` output is: when the
platform is `all` and the source is a manifest index, the ordered list
of `os/arch[/variant]` strings found in the index's manifest list, in
source manifest order; otherwise (explicit or unspecified platform) the
one-element sequence containing the resolved platform string. -/
theorem c4_platforms_output :
    ∀ (env : Env) (e : Event) (props : Props) (descriptor : Descriptor)
      (id : String) (data : OutputData),
      validate e = .ok props →
      lookupReg env.sourceRegistry props.Source = some descriptor →
      (create env e).result = .ok (id, data) →
      (∀ ms, props.Platform = none → descriptor.manifest = .index ms →
        data.Platforms =
          (ms.filterMap (fun m => m.platform)).map V1.Platform.str) ∧
      (∀ p, props.Platform = some p → data.Platforms = [p.str]) := by
  intro env e props descriptor id data hval hlook hres
  have hres' : (createRun env.sourceRegistry env.pushOk e).1 = .ok (id, data) :=
    hres
  unfold createRun at hres'
  simp only [hval] at hres'
  simp only [hlook] at hres'
  constructor
  · intro ms hplat hman
    simp only [hplat] at hres'
    split at hres'
    · simp only [Except.ok.injEq, Prod.mk.injEq] at hres'
      rw [← hres'.2]
      exact getPlatforms_index hman
    · exact absurd hres' (by simp)
  · intro p hplat
    simp only [hplat] at hres'
    split at hres'
    · exact absurd hres' (by simp)
    · split at hres'
      · simp only [Except.ok.injEq, Prod.mk.injEq] at hres'
        rw [← hres'.2]
      · exact absurd hres' (by simp)

def c4Child1 : ChildManifest :=
  ⟨"sha256:b49a31a15c0ec2ec6dbfc53c8ec8d8eb86c4cbee9baf7c26855e289cf62a0a06",
   some ⟨"linux", "amd64", "", ""⟩⟩

def c4Child2 : ChildManifest :=
  ⟨"sha256:c731db75a3a2e5518ad2bd51d4f6a0337b8ae3311c9e5d6f979c2b8804b4a996",
   some ⟨"linux", "arm64", "v8", ""⟩⟩

def c4Index : Descriptor :=
  ⟨"sha256:a92c25b18b533e8b3a97f0cd08e4131ed1f3d28cfbbea2f8a3b7a83707a0f745",
   .index [c4Child1, c4Child2]⟩

def c4Env : Env :=
  ⟨true, .ok (), [("python:3.9", c4Index)], [], true, true⟩

def c4Event : Event :=
  ⟨"Create", "Custom::ContainerImage",
   [("ImageReference", .str "python:3.9"),
    ("RepositoryArn", .str "arn:aws:ecr:eu-central-1:444093529715:repository/demo"),
    ("Platform", .str "all")], ""⟩

def c4Target : String :=
  "444093529715.dkr.ecr.eu-central-1.amazonaws.com/demo:3.9"

def c4Props : Props :=
  ⟨"python:3.9", "3.9", "", "python", none, c4Target,
   "eu-central-1", "444093529715", "demo"⟩

def c4Data : OutputData :=
  ⟨c4Index.Digest, c4Target, ["linux/amd64", "linux/arm64/v8"]⟩

theorem c4_witness :
    (create c4Env c4Event).result = .ok (c4Target, c4Data) ∧
    c4Data.Platforms =
      ([c4Child1, c4Child2].filterMap (fun m => m.platform)).map V1.Platform.str :=
  ⟨rfl,
   (c4_platforms_output c4Env c4Event c4Props c4Index c4Target c4Data
       rfl rfl rfl).1 [c4Child1, c4Child2] rfl rfl⟩

def c5Event : Event :=
  ⟨"Create", "Custom::ContainerImage",
   [("ImageReference", .str "python:3.9"),
    ("RepositoryArn", .str "arn:aws:ecr:eu-central-1:444093529715:repository/demo")], ""⟩

def c5Props : Props :=
  ⟨"python:3.9", "3.9", "", "python", some ⟨"linux", "amd64", "", ""⟩,
   c4Target, "eu-central-1", "444093529715", "demo"⟩

/-- Claim C5 counterexample: the `Digest` result attribute is *not*
always the digest of the artifact actually pushed.  With the default
platform (`linux/amd64`) against a multi-architecture source index, the
artifact pushed is the matching child image (`c4Child1`), but the
`Digest` output is the index digest. -/
theorem c5_counterexample :
    (create c4Env c5Event).result =
      .ok (c4Target, ⟨c4Index.Digest, c4Target, ["linux/amd64"]⟩) ∧
    (create c4Env c5Event).pushed = [(c4Target, ⟨c4Child1.digest, .image⟩)] ∧
    c4Child1.digest ≠ c4Index.Digest :=
  ⟨rfl, rfl, by decide⟩

/-- Claim C5 amended: the `Digest` result attribute equals the digest of
the *fetched source descriptor*; this coincides with the pushed
artifact's digest when the whole artifact is pushed (platform `all`) or
when the source is a single image, but when an explicit or default
platform narrows a manifest index, `Digest` is the index digest, not
the pushed child image's digest. -/
theorem c5_amended :
    ∀ (env : Env) (e : Event) (props : Props) (descriptor : Descriptor)
      (id : String) (data : OutputData),
      validate e = .ok props →
      lookupReg env.sourceRegistry props.Source = some descriptor →
      (create env e).result = .ok (id, data) →
      data.Digest = descriptor.Digest ∧
      (props.Platform = none →
        (create env e).pushed = [(props.Target, descriptor)]) ∧
      (descriptor.manifest = .image →
        (create env e).pushed = [(props.Target, descriptor)]) := by
  intro env e props descriptor id data hval hlook hres
  have hres' : (createRun env.sourceRegistry env.pushOk e).1 = .ok (id, data) :=
    hres
  have hpu : (create env e).pushed = (createRun env.sourceRegistry env.pushOk e).2.2 :=
    rfl
  unfold createRun at hres' hpu
  simp only [hval] at hres' hpu
  simp only [hlook] at hres' hpu
  refine ⟨?_, ?_, ?_⟩
  · cases hplat : props.Platform with
    | none =>
      simp only [hplat] at hres'
      split at hres'
      · simp only [Except.ok.injEq, Prod.mk.injEq] at hres'
        rw [← hres'.2]
      · exact absurd hres' (by simp)
    | some p =>
      simp only [hplat] at hres'
      split at hres'
      · exact absurd hres' (by simp)
      · split at hres'
        · simp only [Except.ok.injEq, Prod.mk.injEq] at hres'
          rw [← hres'.2]
        · exact absurd hres' (by simp)
  · intro hplat
    simp only [hplat] at hres' hpu
    split at hres'
    · rename_i hpush
      rw [hpu]
      simp [hpush]
    · exact absurd hres' (by simp)
  · intro hman
    cases hplat : props.Platform with
    | none =>
      simp only [hplat] at hres' hpu
      split at hres'
      · rename_i hpush
        rw [hpu]
        simp [hpush]
      · exact absurd hres' (by simp)
    | some p =>
      simp only [hplat] at hres' hpu
      have himg : resolveImage descriptor p = some descriptor := by
        unfold resolveImage
        rw [hman]
      simp only [himg] at hres' hpu
      split at hres'
      · rename_i hpush
        rw [hpu]
        simp [hpush]
      · exact absurd hres' (by simp)

theorem c5_witness :
    (create c4Env c5Event).result =
      .ok (c4Target, ⟨c4Index.Digest, c4Target, ["linux/amd64"]⟩) ∧
    (⟨c4Index.Digest, c4Target, ["linux/amd64"]⟩ : OutputData).Digest =
      c4Index.Digest :=
  ⟨rfl,
   (c5_amended c4Env c5Event c5Props c4Index c4Target
       ⟨c4Index.Digest, c4Target, ["linux/amd64"]⟩ rfl rfl rfl).1⟩

/-- Claim C6: reference parsing applies the default-tag policy: a valid
reference with neither tag nor digest parses with tag `latest`; with
only a digest the tag stays empty and the digest is the given digest;
with a tag the parsed tag is the given tag. -/
theorem c6_default_tag_policy :
    (∀ (e : Event) (n : String) (props : Props),
      validPlainName n = true →
      asString (getProp e.ResourceProperties "ImageReference") = some n →
      validate e = .ok props →
      props.SourceTag = "latest" ∧ props.SourceDigest = "") ∧
    (∀ (e : Event) (n d : String) (props : Props),
      validPlainName n = true → validDigestStr d = true →
      asString (getProp e.ResourceProperties "ImageReference") = some (n ++ "@" ++ d) →
      validate e = .ok props →
      props.SourceTag = "" ∧ props.SourceDigest = d) ∧
    (∀ (e : Event) (n t : String) (props : Props),
      validPlainName n = true → validTagStr t = true →
      asString (getProp e.ResourceProperties "ImageReference") = some (n ++ ":" ++ t) →
      validate e = .ok props →
      props.SourceTag = t) := by
  refine ⟨?_, ?_, ?_⟩
  · intro e n props hn himg hok
    obtain ⟨⟨ref, p, href, hp, hTag, hDig, _⟩, _, _⟩ := validate_ok_inv hok
    rw [himg] at href
    injection href with href
    subst href
    rw [parseRef_name_only hn] at hp
    injection hp with hp
    subst hp
    refine ⟨?_, hDig⟩
    rw [hTag]
    simp
  · intro e n d props hn hd himg hok
    obtain ⟨⟨ref, p, href, hp, hTag, hDig, _⟩, _, _⟩ := validate_ok_inv hok
    rw [himg] at href
    injection href with href
    subst href
    rw [parseRef_name_digest hn hd] at hp
    injection hp with hp
    subst hp
    refine ⟨?_, hDig⟩
    rw [hTag]
    simp [validDigest_ne_empty hd]
  · intro e n t props hn ht himg hok
    obtain ⟨⟨ref, p, href, hp, hTag, _, _⟩, _, _⟩ := validate_ok_inv hok
    rw [himg] at href
    injection href with href
    subst href
    rw [parseRef_name_tag hn ht] at hp
    injection hp with hp
    subst hp
    rw [hTag]
    simp [validTag_ne_empty ht]

def c6aEvent : Event :=
  ⟨"Create", "Custom::ContainerImage",
   [("ImageReference", .str "python"), ("RepositoryArn", .str demoArn)], ""⟩

def c6aProps : Props :=
  ⟨"python", "latest", "", "python", some ⟨"linux", "amd64", "", ""⟩,
   demoTarget ++ ":latest", "eu-central-1", "444093529715",
   "cfn-container-image-provider-demo"⟩

def c6bEvent : Event :=
  ⟨"Create", "Custom::ContainerImage",
   [("ImageReference", .str ("python@" ++ digest3d35)),
    ("RepositoryArn", .str demoArn)], ""⟩

def c6bProps : Props :=
  ⟨"python@" ++ digest3d35, "", digest3d35, "python",
   some ⟨"linux", "amd64", "", ""⟩, demoTarget ++ "@" ++ digest3d35,
   "eu-central-1", "444093529715", "cfn-container-image-provider-demo"⟩

def c6cEvent : Event :=
  ⟨"Create", "Custom::ContainerImage",
   [("ImageReference", .str "python:3.9"), ("RepositoryArn", .str demoArn)], ""⟩

def c6cProps : Props :=
  ⟨"python:3.9", "3.9", "", "python", some ⟨"linux", "amd64", "", ""⟩,
   demoTarget ++ ":3.9", "eu-central-1", "444093529715",
   "cfn-container-image-provider-demo"⟩

theorem c6_witness :
    (c6aProps.SourceTag = "latest" ∧ c6aProps.SourceDigest = "") ∧
    (c6bProps.SourceTag = "" ∧ c6bProps.SourceDigest = digest3d35) ∧
    c6cProps.SourceTag = "3.9" :=
  ⟨c6_default_tag_policy.1 c6aEvent "python" c6aProps (by decide) (by rfl) (by rfl),
   c6_default_tag_policy.2.1 c6bEvent "python" digest3d35 c6bProps
     (by decide) (by decide) (by rfl) (by rfl),
   c6_default_tag_policy.2.2 c6cEvent "python" "3.9" c6cProps
     (by decide) (by decide) (by rfl) (by rfl)⟩

/-- Claim C7: when a Create request fails for a resolution or mirror
reason, the returned physical resource id is the sentinel
`create-failed`; when an Update request fails, the error is returned
with an empty physical id. -/
theorem c7_failure_physical_id :
    ∀ (env : Env) (e : Event) (err : CErr),
      env.sessionOk = true → env.authResult = .ok () →
      e.ResourceType = "Custom::ContainerImage" →
      (create env e).result = .error err →
      (e.RequestType = "Create" →
        (Handler env e).physicalResourceID = "create-failed" ∧
        (Handler env e).error = some (.createFailed err)) ∧
      (e.RequestType = "Update" →
        (Handler env e).physicalResourceID = "" ∧
        (Handler env e).error = some (.createFailed err)) := by
  intro env e err hs ha hrt hres
  constructor
  · intro hreq
    rw [Handler_create_err hs ha hrt hreq hres]
    exact ⟨rfl, rfl⟩
  · intro hreq
    rw [Handler_update_err hs ha hrt hreq hres]
    exact ⟨rfl, rfl⟩

def c7Env : Env := ⟨true, .ok (), [], [], true, true⟩

def c7Event : Event :=
  ⟨"Create", "Custom::ContainerImage",
   [("ImageReference", .str "python:3.9"), ("RepositoryArn", .str demoArn)], ""⟩

theorem c7_witness :
    (Handler c7Env c7Event).physicalResourceID = "create-failed" ∧
    (Handler c7Env c7Event).error = some (.createFailed .fetchFailed) :=
  (c7_failure_physical_id c7Env c7Event .fetchFailed rfl rfl rfl rfl).1 rfl

/-- Claim C8: Create is idempotent: a second Create with the same
properties, run against the state left behind by the first (the source
registry unchanged, the target registry extended by the first push),
returns the same physical resource id and the same result data
(including `Digest`). -/
theorem c8_create_idempotent :
    ∀ (env : Env) (e : Event) (id : String) (data : OutputData),
      env.sessionOk = true → env.authResult = .ok () →
      e.ResourceType = "Custom::ContainerImage" → e.RequestType = "Create" →
      (Handler env e).physicalResourceID = id →
      (Handler env e).data = some data →
      (Handler env e).error = none →
      (Handler (Handler env e).envAfter e).physicalResourceID = id ∧
      (Handler (Handler env e).envAfter e).data = some data := by
  intro env e id data hs ha hrt hreq hid hdata herr
  cases hres : (create env e).result with
  | error err =>
    rw [Handler_create_err hs ha hrt hreq hres] at herr
    exact absurd herr (by simp)
  | ok pr =>
    obtain ⟨id0, data0⟩ := pr
    have hH := Handler_create_ok hs ha hrt hreq hres
    rw [hH] at hid hdata
    have henv : (Handler env e).envAfter = (create env e).envAfter := by
      rw [hH]
    have hs2 : (create env e).envAfter.sessionOk = true := hs
    have ha2 : (create env e).envAfter.authResult = .ok () := ha
    have hres2 : (create (create env e).envAfter e).result = .ok (id0, data0) := by
      rw [create_result_congr ((create env e).envAfter) env e rfl rfl]
      exact hres
    have hH2 := Handler_create_ok hs2 ha2 hrt hreq hres2
    rw [henv, hH2]
    exact ⟨hid, hdata⟩

def c8Env : Env :=
  ⟨true, .ok (), [("python@" ++ digest3d35, ⟨digest3d35, .image⟩)], [], true, true⟩

def c8Event : Event :=
  ⟨"Create", "Custom::ContainerImage",
   [("ImageReference", .str ("python:3.9@" ++ digest3d35)),
    ("RepositoryArn", .str demoArn)], ""⟩

def c8Data : OutputData :=
  ⟨digest3d35, demoTarget ++ ":3.9", ["linux/amd64"]⟩

theorem c8_witness :
    (Handler (Handler c8Env c8Event).envAfter c8Event).physicalResourceID =
      demoTarget ++ ":3.9" ∧
    (Handler (Handler c8Env c8Event).envAfter c8Event).data = some c8Data :=
  c8_create_idempotent c8Env c8Event (demoTarget ++ ":3.9") c8Data
    rfl rfl rfl rfl rfl rfl rfl

def c9Arn : String := "arn:aws:ecr:eu-central-1:444093529715:repository/a"

def c9Event : Event :=
  ⟨"Create", "Custom::ContainerImage",
   [("ImageReference", .str "python:3.9"), ("RepositoryArn", .str c9Arn)], ""⟩

/-- Claim C9: the ARN pattern's repository-name group (`[a-z][a-z\d-_/.]+`)
requires at least two characters, so every matched repository name has
length at least 2, a single-character name like
`arn:aws:ecr:eu-central-1:444093529715:repository/a` does not match,
and `validate` rejects it with the invalid-ARN error. -/
theorem c9_single_char_repo_rejected :
    (∀ (s : String) (a : ArnParts), ecrRepositoryArnMatch s = some a →
      2 ≤ a.repositoryName.length) ∧
    ecrRepositoryArnMatch c9Arn = none ∧
    validate c9Event = .error (.invalidRepositoryArn c9Arn) :=
  ⟨fun _ _ h => ecrArnMatch_repo_len h, rfl, rfl⟩

theorem c9_witness :
    2 ≤ (ArnParts.mk "eu-central-1" "444093529715" "python").repositoryName.length :=
  c9_single_char_repo_rejected.1
    "arn:aws:ecr:eu-central-1:444093529715:repository/python"
    (ArnParts.mk "eu-central-1" "444093529715" "python") rfl

/-- Claim C10: when the Platform property is present but not a string,
validation does not fail with the platform-format error: the value is
treated as absent and the platform defaults to `linux/amd64`. -/
theorem c10_nonstring_platform_defaults :
    ∀ (e : Event) (v : PropValue),
      getProp e.ResourceProperties "Platform" = some v →
      v.isString = false →
      (∀ props, validate e = .ok props →
        props.Platform = some ⟨"linux", "amd64", "", ""⟩) ∧
      (∀ m, validate e ≠ .error (.invalidPlatformFormat m)) := by
  intro e v hv hvs
  have hps : asString (getProp e.ResourceProperties "Platform") = none :=
    asString_of_not_string hv hvs
  have hpo : platformOf e = .ok (some ⟨"linux", "amd64", "", ""⟩) := by
    unfold platformOf
    rw [hps]
  constructor
  · intro props hok
    have h3 := (validate_ok_inv hok).2.2
    rw [hpo] at h3
    injection h3 with h3
    exact h3.symm
  · intro m hbad
    have hcontra := validate_platform_err hbad
    rw [hpo] at hcontra
    exact Except.noConfusion hcontra

def c10Event : Event :=
  ⟨"Create", "Custom::ContainerImage",
   [("ImageReference", .str "python:3.9"), ("RepositoryArn", .str demoArn),
    ("Platform", .num 5)], ""⟩

def c10Props : Props :=
  ⟨"python:3.9", "3.9", "", "python", some ⟨"linux", "amd64", "", ""⟩,
   demoTarget ++ ":3.9", "eu-central-1", "444093529715",
   "cfn-container-image-provider-demo"⟩

theorem c10_witness :
    validate c10Event = .ok c10Props ∧
    c10Props.Platform = some ⟨"linux", "amd64", "", ""⟩ :=
  ⟨rfl,
   (c10_nonstring_platform_defaults c10Event (.num 5) rfl rfl).1 c10Props rfl⟩

end ContainerImage
